import Mathlib

/-!
Shallow embedding of the HTTP value types of `linera-base/src/http.rs`:
the `Method` enumeration and its conversion to the native (reqwest) method
type, the `Response` and `Header` value structs, their derived structured
(serde) encoding and compact cross-boundary (WIT) encoding, and
`Response::from_reqwest`.

Machine integers are modelled as `Nat`: `u16` status codes and `u8` bytes
appear only as stored payload values (no arithmetic is performed on them),
so no overflow reduction is needed anywhere.
-/

/-- The method used in an HTTP request (`enum Method`, http.rs lines 14-41). -/
inductive Method where
  | Get
  | Post
  | Put
  | Delete
  | Head
  | Options
  | Connect
  | Patch
  | Trace
deriving DecidableEq, Fintype, Repr

/-- The native (reqwest) method values are interned standard verb strings;
we model a native method by that string. -/
def NativeMethod := String
deriving DecidableEq, Repr

/-- The conversion `impl From<Method> for reqwest::Method` (http.rs lines
44-59): each variant maps to the corresponding reqwest constant, which is
the standard upper-case verb string. -/
def Method.toNative : Method → NativeMethod
  | .Get => "GET"
  | .Post => "POST"
  | .Put => "PUT"
  | .Delete => "DELETE"
  | .Head => "HEAD"
  | .Options => "OPTIONS"
  | .Connect => "CONNECT"
  | .Patch => "PATCH"
  | .Trace => "TRACE"

/-- Modelled from the spec: `from_native(native_method) -> Method` (spec
section 4.1) is absent from the source under `src/`; the spec requires a
conversion that succeeds for exactly the nine listed verbs, i.e. the
partial inverse of `to_native` on its image. -/
def Method.fromNative (s : NativeMethod) : Option Method :=
  if s = "GET" then some .Get
  else if s = "POST" then some .Post
  else if s = "PUT" then some .Put
  else if s = "DELETE" then some .Delete
  else if s = "HEAD" then some .Head
  else if s = "OPTIONS" then some .Options
  else if s = "CONNECT" then some .Connect
  else if s = "PATCH" then some .Patch
  else if s = "TRACE" then some .Trace
  else none

/-- A response for an HTTP request (`struct Response`, http.rs lines 61-74).
`status : u16` and the `u8` bytes of header values and of the body are
modelled as `Nat`. -/
structure Response where
  status : Nat
  headers : List (String × List Nat)
  body : List Nat
deriving DecidableEq, Repr

/-- A header for a HTTP request or response (`struct Header`, http.rs lines
95-104). -/
structure Header where
  name : String
  value : List Nat
deriving DecidableEq, Repr

/-- `Header::new` (http.rs lines 107-113): converts its arguments (modelled
as already-converted `String` and byte list) and stores them unchanged. -/
def Header.new (name : String) (value : List Nat) : Header :=
  { name := name, value := value }

/-! ## Structured (serde) encoding

`Response` and `Header` derive `Serialize`/`Deserialize`; a self-describing
serde target format represents the encoded value as a tree: structs carry
their field names, `#[serde(with = "serde_bytes")]` fields are emitted as a
dedicated byte-sequence node, and a plain `Vec<u8>` (the header values
inside `Response.headers`) is emitted as a sequence of `u8` elements. -/

/-- A value of the self-describing serde data model, restricted to the node
kinds the two derives emit. -/
inductive SerdeValue where
  | u8 (n : Nat)
  | u16 (n : Nat)
  | str (s : String)
  | bytes (b : List Nat)
  | seq (elems : List SerdeValue)
  | tup (elems : List SerdeValue)
  | record (name : String) (fields : List (String × SerdeValue))
deriving Repr

/-- Serde encoding of one `(String, Vec<u8>)` header pair of `Response`:
a 2-tuple of a string and a sequence of `u8` elements (no `serde_bytes`
attribute on the tuple components). -/
def serializeHeaderEntry (p : String × List Nat) : SerdeValue :=
  .tup [.str p.1, .seq (p.2.map SerdeValue.u8)]

/-- Decode a sequence of `u8` nodes back to a byte list. -/
def deserializeU8Seq : List SerdeValue → Option (List Nat)
  | [] => some []
  | .u8 n :: rest => (deserializeU8Seq rest).map fun bs => n :: bs
  | _ => none

/-- Decode one encoded header pair. -/
def deserializeHeaderEntry : SerdeValue → Option (String × List Nat)
  | .tup [.str s, .seq vs] => (deserializeU8Seq vs).map fun bs => (s, bs)
  | _ => none

/-- Decode the encoded header list. -/
def deserializeHeaderSeq : List SerdeValue → Option (List (String × List Nat))
  | [] => some []
  | v :: vs => do
    let p ← deserializeHeaderEntry v
    let ps ← deserializeHeaderSeq vs
    pure (p :: ps)

/-- Derived `Serialize` for `Response`: a struct node named `Response` with
fields `status` (u16), `headers` (sequence of pairs) and `body`
(`serde_bytes`, hence a byte-sequence node). -/
def Response.serialize (r : Response) : SerdeValue :=
  .record "Response"
    [("status", .u16 r.status),
     ("headers", .seq (r.headers.map serializeHeaderEntry)),
     ("body", .bytes r.body)]

/-- Derived `Deserialize` for `Response`. -/
def Response.deserialize : SerdeValue → Option Response
  | .record "Response"
      [("status", .u16 s), ("headers", .seq hs), ("body", .bytes b)] =>
    (deserializeHeaderSeq hs).map fun headers =>
      { status := s, headers := headers, body := b }
  | _ => none

/-- Derived `Serialize` for `Header`: a struct node named `Header` with
fields `name` (string) and `value` (`serde_bytes`, a byte-sequence node). -/
def Header.serialize (h : Header) : SerdeValue :=
  .record "Header" [("name", .str h.name), ("value", .bytes h.value)]

/-- Derived `Deserialize` for `Header`. -/
def Header.deserialize : SerdeValue → Option Header
  | .record "Header" [("name", .str n), ("value", .bytes v)] =>
    some { name := n, value := v }
  | _ => none

/-! ## Compact cross-boundary (WIT) encoding

Modelled from the spec: the derived `WitStore`/`WitLoad` implementations
live in the repository's `linera-witty` crate, which is not under `src/`.
Per spec sections 4.3 and 9, the compact encoding is a schema-typed flat
buffer with length-prefixed raw bytes and no implicit text coercion; we
model the buffer as a list of numeric tokens: a scalar is one token, a byte
sequence is its length followed by its bytes, a string is its character
count followed by the scalar values of its characters, and a list of pairs
is its length followed by the concatenated encodings of its elements. -/

/-- Decode one string-character token; only valid Unicode scalar values are
accepted. -/
def charFromTok (n : Nat) : Option Char :=
  if n.isValidChar then some (Char.ofNat n) else none

/-- Take exactly `n` tokens from the buffer, returning them and the rest. -/
def witTakeExact : Nat → List Nat → Option (List Nat × List Nat)
  | 0, toks => some ([], toks)
  | _ + 1, [] => none
  | n + 1, t :: toks => (witTakeExact n toks).map fun p => (t :: p.1, p.2)

/-- Store a byte sequence: length prefix, then the raw bytes. -/
def witStoreBytes (b : List Nat) : List Nat :=
  b.length :: b

/-- Load a byte sequence: read the length prefix, then that many bytes. -/
def witLoadBytes : List Nat → Option (List Nat × List Nat)
  | [] => none
  | n :: toks => witTakeExact n toks

/-- Store a string: character count, then the characters' scalar values. -/
def witStoreString (s : String) : List Nat :=
  s.toList.length :: s.toList.map Char.toNat

/-- Decode a list of character tokens. -/
def charsFromToks : List Nat → Option (List Char)
  | [] => some []
  | t :: ts => do
    let c ← charFromTok t
    let cs ← charsFromToks ts
    pure (c :: cs)

/-- Load a string: read the character count, that many character tokens,
and rebuild the string. -/
def witLoadString : List Nat → Option (String × List Nat)
  | [] => none
  | n :: toks => do
    let (cs, rest) ← witTakeExact n toks
    let chars ← charsFromToks cs
    pure (String.mk chars, rest)

/-- Store one `(String, Vec<u8>)` header pair: the string, then the byte
sequence. -/
def witStoreHeaderEntry (p : String × List Nat) : List Nat :=
  witStoreString p.1 ++ witStoreBytes p.2

/-- Load one header pair. -/
def witLoadHeaderEntry (toks : List Nat) :
    Option ((String × List Nat) × List Nat) := do
  let (s, rest) ← witLoadString toks
  let (b, rest') ← witLoadBytes rest
  pure ((s, b), rest')

/-- Concatenated encodings of a list of header pairs. -/
def witStoreHeaderTail : List (String × List Nat) → List Nat
  | [] => []
  | p :: ps => witStoreHeaderEntry p ++ witStoreHeaderTail ps

/-- Store the header list: length prefix, then each element in order. -/
def witStoreHeaderSeq (hs : List (String × List Nat)) : List Nat :=
  hs.length :: witStoreHeaderTail hs

/-- Load `n` header pairs in sequence. -/
def witLoadHeaderTail : Nat → List Nat → Option (List (String × List Nat) × List Nat)
  | 0, toks => some ([], toks)
  | n + 1, toks => do
    let (p, rest) ← witLoadHeaderEntry toks
    let (ps, rest') ← witLoadHeaderTail n rest
    pure ((p :: ps), rest')

/-- Derived `WitStore` for `Response`: the fields in declaration order —
status scalar, header list, body bytes. -/
def Response.store (r : Response) : List Nat :=
  r.status :: (witStoreHeaderSeq r.headers ++ witStoreBytes r.body)

/-- Derived `WitLoad` for `Response`: reads the three fields in order and
requires the buffer to be fully consumed. -/
def Response.load : List Nat → Option Response
  | [] => none
  | s :: rest =>
    match rest with
    | [] => none
    | n :: toks => do
      let (headers, rest₁) ← witLoadHeaderTail n toks
      let (body, rest₂) ← witLoadBytes rest₁
      if rest₂.isEmpty then
        pure { status := s, headers := headers, body := body }
      else
        none

/-- Derived `WitStore` for `Header`: name string, then value bytes. -/
def Header.store (h : Header) : List Nat :=
  witStoreString h.name ++ witStoreBytes h.value

/-- Derived `WitLoad` for `Header`: reads the two fields in order and
requires the buffer to be fully consumed. -/
def Header.load (toks : List Nat) : Option Header := do
  let (n, rest) ← witLoadString toks
  let (v, rest') ← witLoadBytes rest
  if rest'.isEmpty then
    pure { name := n, value := v }
  else
    none

/-! ## The native client adapter `Response::from_reqwest`

The native (reqwest) response is modelled by the capability surface the
function uses: `status().as_u16()` (infallible), `headers()` iteration in
client order yielding `(name.to_string(), value.as_bytes().to_owned())`
pairs (infallible; name and value are modelled already converted), and the
single fallible asynchronous body drain `bytes().await`, whose completed
outcome is either the full byte sequence or a client error. -/

/-- An error value produced by the native client, carried unchanged. -/
structure ReqwestError where
  message : String
deriving DecidableEq, Repr

/-- A completed native HTTP response, as consumed by `from_reqwest`. -/
structure ReqwestResponse where
  status : Nat
  headerEntries : List (String × List Nat)
  bodyOutcome : Except ReqwestError (List Nat)
deriving Repr

/-- `Response::from_reqwest` (http.rs lines 77-92): collects the header
pairs in iteration order, then awaits the body drain, propagating its error
with `?`; on success returns the fully populated `Response`. -/
def Response.from_reqwest (response : ReqwestResponse) : Except ReqwestError Response :=
  let headers := response.headerEntries.map fun nv => (nv.1, nv.2)
  match response.bodyOutcome with
  | .error e => .error e
  | .ok bytes => .ok { status := response.status, headers := headers, body := bytes }

theorem deserializeU8Seq_map (bs : List Nat) :
    deserializeU8Seq (bs.map SerdeValue.u8) = some bs := by
  induction bs with
  | nil => rfl
  | cons b bs ih => simp [deserializeU8Seq, ih]

theorem deserializeHeaderEntry_serialize (p : String × List Nat) :
    deserializeHeaderEntry (serializeHeaderEntry p) = some p := by
  simp [serializeHeaderEntry, deserializeHeaderEntry, deserializeU8Seq_map]

theorem deserializeHeaderSeq_map (hs : List (String × List Nat)) :
    deserializeHeaderSeq (hs.map serializeHeaderEntry) = some hs := by
  induction hs with
  | nil => rfl
  | cons p ps ih =>
    simp [deserializeHeaderSeq, deserializeHeaderEntry_serialize, ih]

/-- Claim C1: for every `Response` value `r`, including ones with an empty
body, empty headers, and headers or bodies containing the byte 0x00 or
invalid-UTF8 byte sequences, decoding the structured self-describing
(serde) encoding of the encoding of `r` reproduces `r` exactly. -/
theorem response_serde_roundtrip (r : Response) :
    Response.deserialize (Response.serialize r) = some r := by
  cases r with
  | mk s hs b =>
    simp [Response.serialize, Response.deserialize, deserializeHeaderSeq_map]

theorem charFromTok_toNat (c : Char) : charFromTok c.toNat = some c := by
  have h : Nat.isValidChar c.toNat := c.valid
  simp [charFromTok, h]

theorem witTakeExact_append (xs r : List Nat) :
    witTakeExact xs.length (xs ++ r) = some (xs, r) := by
  induction xs with
  | nil => rfl
  | cons x xs ih => simp [witTakeExact, ih]

theorem witLoadBytes_append (b r : List Nat) :
    witLoadBytes (witStoreBytes b ++ r) = some (b, r) := by
  simp [witStoreBytes, witLoadBytes, witTakeExact_append]

theorem charsFromToks_map (cs : List Char) :
    charsFromToks (cs.map Char.toNat) = some cs := by
  induction cs with
  | nil => rfl
  | cons c cs ih => simp [charsFromToks, charFromTok_toNat, ih]

theorem witLoadString_append (s : String) (r : List Nat) :
    witLoadString (witStoreString s ++ r) = some (s, r) := by
  have take := witTakeExact_append (s.toList.map Char.toNat) r
  rw [List.length_map] at take
  simp only [witStoreString, witLoadString, List.cons_append]
  rw [take]
  simp only [Option.bind_eq_bind, Option.some_bind, charsFromToks_map]
  rfl

theorem witLoadHeaderEntry_append (p : String × List Nat) (r : List Nat) :
    witLoadHeaderEntry (witStoreHeaderEntry p ++ r) = some (p, r) := by
  simp [witStoreHeaderEntry, witLoadHeaderEntry, List.append_assoc,
    witLoadString_append, witLoadBytes_append]

theorem witLoadBytes_exact (b : List Nat) :
    witLoadBytes (witStoreBytes b) = some (b, []) := by
  have h := witLoadBytes_append b []
  simpa using h

theorem witLoadHeaderTail_append (hs : List (String × List Nat)) (r : List Nat) :
    witLoadHeaderTail hs.length (witStoreHeaderTail hs ++ r) = some (hs, r) := by
  induction hs with
  | nil => rfl
  | cons p ps ih =>
    simp [witStoreHeaderTail, witLoadHeaderTail, List.append_assoc,
      witLoadHeaderEntry_append, ih]

/-- Claim C2: for every `Response` value `r`, including ones with an empty
body, empty headers, and headers or bodies containing the byte 0x00 or
invalid-UTF8 byte sequences, decoding the compact schema-typed
cross-boundary (WIT) encoding of the encoding of `r` reproduces `r`
exactly. -/
theorem response_wit_roundtrip (r : Response) :
    Response.load (Response.store r) = some r := by
  cases r with
  | mk s hs b =>
    simp [Response.store, Response.load, witStoreHeaderSeq, List.append_assoc,
      witLoadHeaderTail_append, witLoadBytes_exact]

theorem header_wit_roundtrip (h : Header) :
    Header.load (Header.store h) = some h := by
  cases h with
  | mk n v =>
    simp [Header.store, Header.load, List.append_assoc,
      witLoadString_append, witLoadBytes_exact]

theorem header_serde_roundtrip (h : Header) :
    Header.deserialize (Header.serialize h) = some h := by
  cases h with
  | mk n v => rfl

/-- Claim C7: a `Header`'s value bytes pass through every encoding path as
opaque binary data: every `Header`, and in particular
`Header::new("X-Test", [0xFF, 0x00, 0x80])`, round-trips through both the
structured (serde) encoding and the compact boundary (WIT) encoding with
exactly the same name and exactly the same value bytes. -/
theorem header_binary_safety :
    (∀ h : Header,
      Header.deserialize (Header.serialize h) = some h ∧
      Header.load (Header.store h) = some h) ∧
    (Header.deserialize (Header.serialize (Header.new "X-Test" [255, 0, 128])) =
      some { name := "X-Test", value := [255, 0, 128] }) ∧
    (Header.load (Header.store (Header.new "X-Test" [255, 0, 128])) =
      some { name := "X-Test", value := [255, 0, 128] }) :=
  ⟨fun h => ⟨header_serde_roundtrip h, header_wit_roundtrip h⟩,
   header_serde_roundtrip (Header.new "X-Test" [255, 0, 128]),
   header_wit_roundtrip (Header.new "X-Test" [255, 0, 128])⟩

/-- Claim C3: for every completed native response whose body drain
succeeds, `from_reqwest` returns a `Response` whose status is the native
numeric status, whose headers are exactly the native header pairs in
iteration order with duplicates preserved and no case normalization, and
whose body contains every drained byte in order. -/
theorem from_reqwest_success (response : ReqwestResponse) (bytes : List Nat)
    (h : response.bodyOutcome = Except.ok bytes) :
    Response.from_reqwest response =
      Except.ok { status := response.status,
                  headers := response.headerEntries,
                  body := bytes } := by
  simp [Response.from_reqwest, h]

/-- Witness for claim C3 at the spec's concrete scenario: status 404, one
`content-type` header, body `b"not found"`. -/
theorem from_reqwest_success_witness :
    (ReqwestResponse.mk 404
        [("content-type", [116, 101, 120, 116, 47, 112, 108, 97, 105, 110])]
        (Except.ok [110, 111, 116, 32, 102, 111, 117, 110, 100])).bodyOutcome =
      Except.ok [110, 111, 116, 32, 102, 111, 117, 110, 100] ∧
    Response.from_reqwest
      (ReqwestResponse.mk 404
        [("content-type", [116, 101, 120, 116, 47, 112, 108, 97, 105, 110])]
        (Except.ok [110, 111, 116, 32, 102, 111, 117, 110, 100])) =
      Except.ok
        { status := 404,
          headers := [("content-type", [116, 101, 120, 116, 47, 112, 108, 97, 105, 110])],
          body := [110, 111, 116, 32, 102, 111, 117, 110, 100] } :=
  ⟨rfl, from_reqwest_success _ _ rfl⟩

/-- Claim C4: whenever draining the body of the native response fails,
`from_reqwest` propagates that failure unchanged — it never returns a
`Response` with a partial or truncated body and has no fallback. -/
theorem from_reqwest_propagates_error (response : ReqwestResponse) (e : ReqwestError)
    (h : response.bodyOutcome = Except.error e) :
    Response.from_reqwest response = Except.error e := by
  simp [Response.from_reqwest, h]

/-- Witness for claim C4 at a concrete failing drain. -/
theorem from_reqwest_propagates_error_witness :
    (ReqwestResponse.mk 200 [("a", [49])]
        (Except.error (ReqwestError.mk "connection reset"))).bodyOutcome =
      Except.error (ReqwestError.mk "connection reset") ∧
    Response.from_reqwest
      (ReqwestResponse.mk 200 [("a", [49])]
        (Except.error (ReqwestError.mk "connection reset"))) =
      Except.error (ReqwestError.mk "connection reset") :=
  ⟨rfl, from_reqwest_propagates_error _ _ rfl⟩

/-- Claim C10: `from_reqwest` returns an error exactly when the body drain
fails, and on a successful drain returns the fully populated value —
status extraction and header conversion have no failure path of their
own. -/
theorem from_reqwest_error_characterization (response : ReqwestResponse) :
    Response.from_reqwest response =
      Except.map
        (fun bytes => { status := response.status,
                        headers := response.headerEntries,
                        body := bytes })
        response.bodyOutcome ∧
    (∀ e, Response.from_reqwest response = Except.error e ↔
      response.bodyOutcome = Except.error e) := by
  cases hb : response.bodyOutcome with
  | error e => simp [Response.from_reqwest, hb, Except.map]
  | ok bytes => simp [Response.from_reqwest, hb, Except.map]

/-- Claim C5: the conversion `from_native` (modelled from the spec)
succeeds for exactly the nine listed verbs, and for every `Method` variant
`m`, `to_native(from_native(to_native(m))) == to_native(m)`. -/
theorem method_native_bijection :
    (∀ s : NativeMethod, (Method.fromNative s).isSome ↔
      s ∈ (["GET", "POST", "PUT", "DELETE", "HEAD",
            "OPTIONS", "CONNECT", "PATCH", "TRACE"] : List NativeMethod)) ∧
    (∀ m : Method,
      (Method.fromNative (Method.toNative m)).map Method.toNative =
        some (Method.toNative m)) := by
  constructor
  · intro s
    unfold Method.fromNative
    split_ifs <;> simp_all
  · intro m
    cases m <;> rfl

/-- Claim C6: `to_native` is a total pure function (it is a Lean function
out of the closed `Method` enumeration) and is injective: distinct
variants map to distinct native method values. -/
theorem method_to_native_injective : Function.Injective Method.toNative := by
  decide

/-- Claim C8: equality of `Response` values is structural over
`(status, headers, body)`: two values are equal iff every field compares
equal, including header order, and swapping the order of two headers makes
them unequal. -/
theorem response_eq_structural :
    (∀ r₁ r₂ : Response,
      r₁ = r₂ ↔ r₁.status = r₂.status ∧ r₁.headers = r₂.headers ∧ r₁.body = r₂.body) ∧
    Response.mk 200 [("A", [49]), ("A", [50])] [] ≠
      Response.mk 200 [("A", [50]), ("A", [49])] [] := by
  constructor
  · intro r₁ r₂
    cases r₁
    cases r₂
    simp
  · decide

/-- Claim C9: `Header::new` is total and performs no validation: for every
name string and value byte sequence it succeeds and stores both unchanged
in the resulting `Header`. -/
theorem header_new_total (name : String) (value : List Nat) :
    (Header.new name value).name = name ∧ (Header.new name value).value = value :=
  ⟨rfl, rfl⟩
